import Mathlib

/- Verification of the Mergin project metadata module
   (merginprojectmetadata.cpp): parsing of a project manifest from a JSON
   document, loading from a cached file, and point lookup of file records.

   Qt strings (QString) are modelled as lists of characters.  A QJsonValue
   is modelled by the inductive QJson below; a QByteArray handed to
   QJsonDocument::fromJson is represented by the outcome of that
   deserialization: none for bytes that are not a valid JSON document (a
   null QJsonDocument), otherwise the top-level value. -/

/-- Model of a Qt JSON value (QJsonValue).  Numbers are restricted to the
integral doubles that manifests carry.  A QJsonObject is a list of
key-value pairs; Qt keeps keys unique, and value lookup returns the value
of the first matching key. -/
inductive QJson where
  | null : QJson
  | bool (b : Bool) : QJson
  | num (n : Int) : QJson
  | str (s : List Char) : QJson
  | arr (elts : List QJson) : QJson
  | obj (kvs : List (List Char × QJson)) : QJson

/-- QJsonObject::value: the value stored at the key, or none (the
Undefined QJsonValue) when the key is absent. -/
def objValue (kvs : List (List Char × QJson)) (key : List Char) : Option QJson :=
  match kvs with
  | [] => none
  | (k, v) :: rest => if k = key then some v else objValue rest key

/-- QJsonValue::toString on a possibly-Undefined value: the payload when
the value is a String, otherwise the null QString (empty). -/
def jsonToString : Option QJson → List Char
  | some (QJson.str s) => s
  | _ => []

/-- QJsonValue::toInt with default 0: the number when it is an integral
double that fits a 32-bit signed int, otherwise the default 0. -/
def jsonToInt : Option QJson → Int
  | some (QJson.num n) => if -(2 ^ 31) ≤ n ∧ n < 2 ^ 31 then n else 0
  | _ => 0

/-- QJsonValue::isArray on a possibly-Undefined value. -/
def jsonIsArray : Option QJson → Bool
  | some (QJson.arr _) => true
  | _ => false

/-- QJsonValue::toArray with the default empty array. -/
def jsonToArray : Option QJson → List QJson
  | some (QJson.arr xs) => xs
  | _ => []

/-- QJsonValue::toObject with the default empty object. -/
def jsonToObject : QJson → List (List Char × QJson)
  | QJson.obj kvs => kvs
  | _ => []

/-- QJsonValue::isObject. -/
def jsonIsObject : QJson → Bool
  | QJson.obj _ => true
  | _ => false

/-- The decimal value of a digit character, none for any other character. -/
def digitVal (c : Char) : Option Nat :=
  if c = '0' then some 0 else if c = '1' then some 1 else if c = '2' then some 2
  else if c = '3' then some 3 else if c = '4' then some 4 else if c = '5' then some 5
  else if c = '6' then some 6 else if c = '7' then some 7 else if c = '8' then some 8
  else if c = '9' then some 9 else none

/-- The character for a decimal digit (digits above 9 do not occur). -/
def decDigitChar (n : Nat) : Char :=
  if n = 0 then '0' else if n = 1 then '1' else if n = 2 then '2'
  else if n = 3 then '3' else if n = 4 then '4' else if n = 5 then '5'
  else if n = 6 then '6' else if n = 7 then '7' else if n = 8 then '8' else '9'

/-- The big-endian decimal digits of a natural number. -/
def natDecDigits (n : Nat) : List Nat :=
  if _h : n < 10 then [n]
  else natDecDigits (n / 10) ++ [n % 10]
termination_by n
decreasing_by exact Nat.div_lt_self (by omega) (by omega)

/-- Decimal numeral of a natural number, as characters. -/
def natToChars (n : Nat) : List Char :=
  (natDecDigits n).map decDigitChar

/-- Decimal numeral of an integer, as characters. -/
def intToChars (v : Int) : List Char :=
  if v < 0 then '-' :: natToChars (-v).toNat else natToChars v.toNat

/-- Parse a non-empty all-digit character list as a natural number;
any other list fails. -/
def parseNatChars (l : List Char) : Option Nat :=
  if l = [] then none
  else
    l.foldl (fun acc c =>
      match acc, digitVal c with
      | some a, some d => some (a * 10 + d)
      | _, _ => none) (some 0)

/-- Parse an optional sign followed by decimal digits as an unbounded
integer; anything else fails. -/
def parseIntegerChars (l : List Char) : Option Int :=
  if l = [] then none
  else if l.head? = some '-' then (parseNatChars l.tail).map (fun n => -Int.ofNat n)
  else if l.head? = some '+' then (parseNatChars l.tail).map Int.ofNat
  else (parseNatChars l).map Int.ofNat

/-- Model of QString::toInt (base 10, C locale): an optional sign followed
by decimal digits converts to its value; a failed conversion - empty
string, stray characters, or a value outside the 32-bit signed range -
yields 0. -/
def qstringToInt (s : List Char) : Int :=
  ((parseIntegerChars s).map (fun v => if -(2 ^ 31) ≤ v ∧ v < 2 ^ 31 then v else 0)).getD 0

theorem digitVal_decDigitChar (k : Nat) (hk : k ≤ 9) :
    digitVal (decDigitChar k) = some k := by
  interval_cases k <;> rfl

theorem decDigitChar_ne_sign (k : Nat) (hk : k ≤ 9) :
    decDigitChar k ≠ '-' ∧ decDigitChar k ≠ '+' := by
  interval_cases k <;> exact ⟨by decide, by decide⟩

theorem natDecDigits_le_nine (n : Nat) : ∀ d ∈ natDecDigits n, d ≤ 9 := by
  induction n using Nat.strong_induction_on with
  | _ n ih =>
    rw [natDecDigits]
    split
    · intro d hd
      simp only [List.mem_singleton] at hd
      omega
    · intro d hd
      rcases List.mem_append.mp hd with h1 | h2
      · exact ih (n / 10) (Nat.div_lt_self (by omega) (by omega)) d h1
      · simp only [List.mem_singleton] at h2
        have := Nat.mod_lt n (y := 10) (by omega)
        omega

theorem natDecDigits_ne_nil (n : Nat) : natDecDigits n ≠ [] := by
  rw [natDecDigits]
  split
  · simp
  · simp

theorem natDecDigits_foldl (n : Nat) : ∀ a : Nat,
    (natDecDigits n).foldl (fun x d => x * 10 + d) a =
      a * 10 ^ (natDecDigits n).length + n := by
  induction n using Nat.strong_induction_on with
  | _ n ih =>
    intro a
    rw [natDecDigits]
    split
    · simp
    · rw [List.foldl_append, ih (n / 10) (Nat.div_lt_self (by omega) (by omega)),
        List.length_append]
      simp only [List.foldl_cons, List.foldl_nil, List.length_cons, List.length_nil]
      have hmod : n / 10 * 10 + n % 10 = n := by omega
      have hpow : a * 10 ^ ((natDecDigits (n / 10)).length + (0 + 1)) =
          a * 10 ^ (natDecDigits (n / 10)).length * 10 := by
        rw [Nat.zero_add, pow_succ]
        ring
      rw [hpow]
      omega

theorem foldl_digits_map (ds : List Nat) : ∀ a : Nat, (∀ d ∈ ds, d ≤ 9) →
    (ds.map decDigitChar).foldl (fun acc c =>
      match acc, digitVal c with
      | some a, some d => some (a * 10 + d)
      | _, _ => none) (some a) =
    some (ds.foldl (fun x d => x * 10 + d) a) := by
  induction ds with
  | nil => intro a _; rfl
  | cons d ds ih =>
    intro a hb
    have hd : d ≤ 9 := hb d (List.mem_cons_self d ds)
    simp only [List.map_cons, List.foldl_cons, digitVal_decDigitChar d hd]
    exact ih (a * 10 + d) (fun x hx => hb x (List.mem_cons_of_mem d hx))

theorem natToChars_ne_nil (n : Nat) : natToChars n ≠ [] := by
  unfold natToChars
  simp [natDecDigits_ne_nil n]

theorem parseNatChars_natToChars (n : Nat) : parseNatChars (natToChars n) = some n := by
  rw [parseNatChars, if_neg (natToChars_ne_nil n)]
  unfold natToChars
  rw [foldl_digits_map (natDecDigits n) 0 (natDecDigits_le_nine n), natDecDigits_foldl n 0]
  simp

theorem natToChars_head_not_sign (n : Nat) :
    natToChars n ≠ [] ∧ (natToChars n).head? ≠ some '-' ∧ (natToChars n).head? ≠ some '+' := by
  obtain ⟨d, ds, hds⟩ : ∃ d ds, natDecDigits n = d :: ds := by
    cases h : natDecDigits n with
    | nil => exact absurd h (natDecDigits_ne_nil n)
    | cons d ds => exact ⟨d, ds, rfl⟩
  have hd9 : d ≤ 9 := natDecDigits_le_nine n d (by rw [hds]; exact List.mem_cons_self d ds)
  have hchars : natToChars n = decDigitChar d :: ds.map decDigitChar := by
    unfold natToChars; rw [hds]; rfl
  refine ⟨natToChars_ne_nil n, ?_, ?_⟩
  · rw [hchars]
    simp only [List.head?_cons, ne_eq, Option.some.injEq]
    exact (decDigitChar_ne_sign d hd9).1
  · rw [hchars]
    simp only [List.head?_cons, ne_eq, Option.some.injEq]
    exact (decDigitChar_ne_sign d hd9).2

theorem parseIntegerChars_natToChars (n : Nat) :
    parseIntegerChars (natToChars n) = some (Int.ofNat n) := by
  obtain ⟨hne, hm, hp⟩ := natToChars_head_not_sign n
  rw [parseIntegerChars, if_neg hne, if_neg hm, if_neg hp, parseNatChars_natToChars]
  rfl

theorem parseIntegerChars_intToChars (v : Int) :
    parseIntegerChars (intToChars v) = some v := by
  unfold intToChars
  by_cases hv : v < 0
  · rw [if_pos hv, parseIntegerChars,
      if_neg (by simp : ('-' :: natToChars (-v).toNat : List Char) ≠ []),
      if_pos (by simp : ('-' :: natToChars (-v).toNat).head? = some '-')]
    simp only [List.tail_cons]
    rw [parseNatChars_natToChars]
    have hsup : (-v) ⊔ 0 = -v := sup_eq_left.mpr (by omega)
    simp [Int.ofNat_toNat, hsup]
  · rw [if_neg hv, parseIntegerChars_natToChars]
    have hsup : v ⊔ 0 = v := sup_eq_left.mpr (by omega)
    simp [Int.ofNat_toNat, hsup]

theorem qstringToInt_intToChars (v : Int) (h1 : -(2 ^ 31) ≤ v) (h2 : v < 2 ^ 31) :
    qstringToInt (intToChars v) = v := by
  unfold qstringToInt
  rw [parseIntegerChars_intToChars v]
  show (if -(2 ^ 31) ≤ v ∧ v < 2 ^ 31 then v else 0) = v
  exact if_pos ⟨h1, h2⟩

/-- The civil fields of a date-time with millisecond precision.  A valid
QDateTime carried in UTC representation is fully described by these
fields; an invalid QDateTime (the sentinel produced by a failed parse, or
by default construction) is modelled as none at Option CivilTime. -/
structure CivilTime where
  year : Nat
  month : Nat
  day : Nat
  hour : Nat
  minute : Nat
  second : Nat
  msec : Nat
deriving DecidableEq

/-- Gregorian leap year. -/
def isLeapYear (y : Nat) : Bool :=
  (y % 4 = 0 && y % 100 ≠ 0) || y % 400 = 0

/-- Number of days in a month of a year. -/
def daysInMonth (y m : Nat) : Nat :=
  if m = 2 then (if isLeapYear y then 29 else 28)
  else if m = 4 ∨ m = 6 ∨ m = 9 ∨ m = 11 then 30 else 31

/-- Validity of the civil fields, as QDate/QTime check them (there is no
year zero, and four-digit years only reach 9999). -/
def CivilTime.validB (t : CivilTime) : Bool :=
  decide (1 ≤ t.year ∧ t.year ≤ 9999 ∧ 1 ≤ t.month ∧ t.month ≤ 12 ∧
    1 ≤ t.day ∧ t.day ≤ daysInMonth t.year t.month ∧
    t.hour ≤ 23 ∧ t.minute ≤ 59 ∧ t.second ≤ 59 ∧ t.msec ≤ 999)

/-- The civil date one day earlier. -/
def prevDay (y m d : Nat) : Nat × Nat × Nat :=
  if 1 < d then (y, m, d - 1)
  else if 1 < m then (y, m - 1, daysInMonth y (m - 1))
  else (y - 1, 12, 31)

/-- The civil date one day later. -/
def nextDay (y m d : Nat) : Nat × Nat × Nat :=
  if d < daysInMonth y m then (y, m, d + 1)
  else if m < 12 then (y, m + 1, 1)
  else (y + 1, 1, 1)

/-- Normalization to UTC of a civil time carrying a zone offset, given in
minutes: the offset is subtracted; a legal offset is below one day, so the
calendar date moves by at most one day. -/
def applyOffset (t : CivilTime) (off : Int) : CivilTime :=
  let total : Int := (t.hour : Int) * 60 + (t.minute : Int) - off
  if 0 ≤ total ∧ total < 1440 then
    { t with hour := total.toNat / 60, minute := total.toNat % 60 }
  else if total < 0 then
    let ymd := prevDay t.year t.month t.day
    { year := ymd.1, month := ymd.2.1, day := ymd.2.2,
      hour := (total + 1440).toNat / 60, minute := (total + 1440).toNat % 60,
      second := t.second, msec := t.msec }
  else
    let ymd := nextDay t.year t.month t.day
    { year := ymd.1, month := ymd.2.1, day := ymd.2.2,
      hour := (total - 1440).toNat / 60, minute := (total - 1440).toNat % 60,
      second := t.second, msec := t.msec }

/-- Read exactly two decimal digits. -/
def readNat2 : List Char → Option (Nat × List Char)
  | a :: b :: rest =>
    match digitVal a, digitVal b with
    | some x, some y => some (x * 10 + y, rest)
    | _, _ => none
  | _ => none

/-- Read exactly three decimal digits. -/
def readNat3 : List Char → Option (Nat × List Char)
  | a :: b :: c :: rest =>
    match digitVal a, digitVal b, digitVal c with
    | some x, some y, some z => some ((x * 10 + y) * 10 + z, rest)
    | _, _, _ => none
  | _ => none

/-- Read exactly four decimal digits. -/
def readNat4 : List Char → Option (Nat × List Char)
  | a :: b :: c :: d :: rest =>
    match digitVal a, digitVal b, digitVal c, digitVal d with
    | some w, some x, some y, some z => some (((w * 10 + x) * 10 + y) * 10 + z, rest)
    | _, _, _, _ => none
  | _ => none

/-- Consume one expected character. -/
def expectChar (c : Char) : List Char → Option (List Char)
  | x :: rest => if x = c then some rest else none
  | [] => none

/-- Read the optional fractional-second part: a dot followed by three
digits of milliseconds, or nothing (0 ms). -/
def readMsec : List Char → Option (Nat × List Char)
  | '.' :: rest => readNat3 rest
  | l => some (0, l)

/-- Read the time-zone designator ending the string: nothing or Z for
UTC, or a signed HH:MM offset in minutes. -/
def readOffset : List Char → Option Int
  | [] => some 0
  | ['Z'] => some 0
  | c :: rest =>
    if c = '+' ∨ c = '-' then
      match readNat2 rest with
      | some (oh, r1) =>
        match expectChar ':' r1 with
        | some r2 =>
          match readNat2 r2 with
          | some (om, []) =>
            if oh ≤ 23 ∧ om ≤ 59 then
              some ((if c = '-' then -1 else 1) * ((oh : Int) * 60 + om))
            else none
          | _ => none
        | none => none
      | none => none
    else none

/-- Model of QDateTime::fromString with format Qt::ISODateWithMs followed
by toUTC, the composite the source applies: parses
yyyy-MM-ddTHH:mm:ss[.zzz] with an optional trailing zone designator and
normalizes the result to UTC.  A string without a designator is local
time; the model takes the process time zone to be UTC.  A string that
does not match, or whose fields are out of range, gives the invalid
QDateTime, modelled as none. -/
def qdatetimeFromIsoUTC (l : List Char) : Option CivilTime :=
  match readNat4 l with
  | none => none
  | some (y, r1) =>
  match expectChar '-' r1 with
  | none => none
  | some r2 =>
  match readNat2 r2 with
  | none => none
  | some (mo, r3) =>
  match expectChar '-' r3 with
  | none => none
  | some r4 =>
  match readNat2 r4 with
  | none => none
  | some (d, r5) =>
  match expectChar 'T' r5 with
  | none => none
  | some r6 =>
  match readNat2 r6 with
  | none => none
  | some (h, r7) =>
  match expectChar ':' r7 with
  | none => none
  | some r8 =>
  match readNat2 r8 with
  | none => none
  | some (mi, r9) =>
  match expectChar ':' r9 with
  | none => none
  | some r10 =>
  match readNat2 r10 with
  | none => none
  | some (s, r11) =>
  match readMsec r11 with
  | none => none
  | some (ms, r12) =>
  match readOffset r12 with
  | none => none
  | some off =>
    let t : CivilTime := ⟨y, mo, d, h, mi, s, ms⟩
    if t.validB then some (applyOffset t off) else none

/-- Two-digit zero-padded numeral. -/
def pad2 (n : Nat) : List Char := [decDigitChar (n / 10), decDigitChar (n % 10)]

/-- Three-digit zero-padded numeral. -/
def pad3 (n : Nat) : List Char :=
  [decDigitChar (n / 100), decDigitChar (n / 10 % 10), decDigitChar (n % 10)]

/-- Four-digit zero-padded numeral. -/
def pad4 (n : Nat) : List Char :=
  [decDigitChar (n / 1000), decDigitChar (n / 100 % 10),
   decDigitChar (n / 10 % 10), decDigitChar (n % 10)]

/-- Model of QDateTime::toString with format Qt::ISODateWithMs on a valid
UTC date-time: yyyy-MM-ddTHH:mm:ss.zzzZ. -/
def formatIsoUTC (t : CivilTime) : List Char :=
  pad4 t.year ++
    ('-' ::
      (pad2 t.month ++
        ('-' ::
          (pad2 t.day ++
            ('T' ::
              (pad2 t.hour ++
                (':' ::
                  (pad2 t.minute ++
                    (':' ::
                      (pad2 t.second ++
                        ('.' :: (pad3 t.msec ++ ['Z']))))))))))))

theorem readNat2_pad2 (n : Nat) (h : n ≤ 99) (rest : List Char) :
    readNat2 (pad2 n ++ rest) = some (n, rest) := by
  simp only [pad2, List.cons_append, List.nil_append, readNat2,
    digitVal_decDigitChar (n / 10) (by omega : n / 10 ≤ 9),
    digitVal_decDigitChar (n % 10) (by omega : n % 10 ≤ 9)]
  have : n / 10 * 10 + n % 10 = n := by omega
  rw [this]

theorem readNat3_pad3 (n : Nat) (h : n ≤ 999) (rest : List Char) :
    readNat3 (pad3 n ++ rest) = some (n, rest) := by
  simp only [pad3, List.cons_append, List.nil_append, readNat3,
    digitVal_decDigitChar (n / 100) (by omega : n / 100 ≤ 9),
    digitVal_decDigitChar (n / 10 % 10) (by omega : n / 10 % 10 ≤ 9),
    digitVal_decDigitChar (n % 10) (by omega : n % 10 ≤ 9)]
  have : (n / 100 * 10 + n / 10 % 10) * 10 + n % 10 = n := by omega
  rw [this]

theorem readNat4_pad4 (n : Nat) (h : n ≤ 9999) (rest : List Char) :
    readNat4 (pad4 n ++ rest) = some (n, rest) := by
  simp only [pad4, List.cons_append, List.nil_append, readNat4,
    digitVal_decDigitChar (n / 1000) (by omega : n / 1000 ≤ 9),
    digitVal_decDigitChar (n / 100 % 10) (by omega : n / 100 % 10 ≤ 9),
    digitVal_decDigitChar (n / 10 % 10) (by omega : n / 10 % 10 ≤ 9),
    digitVal_decDigitChar (n % 10) (by omega : n % 10 ≤ 9)]
  have : ((n / 1000 * 10 + n / 100 % 10) * 10 + n / 10 % 10) * 10 + n % 10 = n := by omega
  rw [this]

theorem readOffset_z : readOffset ['Z'] = some 0 := rfl

theorem daysInMonth_le (y m : Nat) : daysInMonth y m ≤ 31 := by
  unfold daysInMonth
  split
  · split <;> omega
  · split <;> omega

theorem applyOffset_zero (t : CivilTime) (hh : t.hour ≤ 23) (hm : t.minute ≤ 59) :
    applyOffset t 0 = t := by
  unfold applyOffset
  have htot : (0 : Int) ≤ (t.hour : Int) * 60 + (t.minute : Int) - 0 ∧
      (t.hour : Int) * 60 + (t.minute : Int) - 0 < 1440 := by omega
  rw [if_pos htot]
  have h1 : ((t.hour : Int) * 60 + (t.minute : Int) - 0).toNat / 60 = t.hour := by omega
  have h2 : ((t.hour : Int) * 60 + (t.minute : Int) - 0).toNat % 60 = t.minute := by omega
  simp only [h1, h2]

theorem qdatetime_roundtrip (t : CivilTime) (hv : t.validB = true) :
    qdatetimeFromIsoUTC (formatIsoUTC t) = some t := by
  have hfields := of_decide_eq_true hv
  obtain ⟨h1, h2, h3, h4, h5, h6, h7, h8, h9, h10⟩ := hfields
  unfold formatIsoUTC qdatetimeFromIsoUTC
  simp only [readNat4_pad4 t.year (by omega : t.year ≤ 9999),
    readNat2_pad2 t.month (by omega : t.month ≤ 99),
    readNat2_pad2 t.day (by have := daysInMonth_le t.year t.month; omega : t.day ≤ 99),
    readNat2_pad2 t.hour (by omega : t.hour ≤ 99),
    readNat2_pad2 t.minute (by omega : t.minute ≤ 99),
    readNat2_pad2 t.second (by omega : t.second ≤ 99),
    readNat3_pad3 t.msec (by omega : t.msec ≤ 999),
    expectChar, readMsec, readOffset_z, reduceIte]
  have heta : (⟨t.year, t.month, t.day, t.hour, t.minute, t.second, t.msec⟩ : CivilTime) = t := rfl
  rw [heta, if_pos hv, applyOffset_zero t h7 h8]

/-- Modelled from the spec: the declaration of struct MerginFile with its
member defaults lives in merginprojectmetadata.h, which is not among the
sources; following the data model of the spec, a default-constructed
record (FileRecord) has empty strings, size 0 and the invalid (sentinel)
timestamp.  The field set is the one the sources read and write. -/
structure MerginFile where
  checksum : List Char := []
  path : List Char := []
  size : Int := 0
  mtime : Option CivilTime := none
deriving DecidableEq

/-- MerginFile::fromJsonObject: decodes one file record from a JSON
object, field by field; the mtime string is parsed as strict ISO-8601
with milliseconds and normalized to UTC. -/
def MerginFile.fromJsonObject (merginFileInfo : List (List Char × QJson)) : MerginFile :=
  { checksum := jsonToString (objValue merginFileInfo ("checksum".data)),
    path := jsonToString (objValue merginFileInfo ("path".data)),
    size := jsonToInt (objValue merginFileInfo ("size".data)),
    mtime := qdatetimeFromIsoUTC (jsonToString (objValue merginFileInfo ("mtime".data))) }

/-- Modelled from the spec: the declaration of struct
MerginProjectMetadata with its member defaults lives in
merginprojectmetadata.h, which is not among the sources; following the
spec, a default-constructed (empty) manifest has empty name and
namespace, version 0 and no files.  The field set is the one the sources
read and write. -/
structure MerginProjectMetadata where
  name : List Char := []
  projectNamespace : List Char := []
  version : Int := 0
  files : List MerginFile := []
deriving DecidableEq

/-- The version computation of MerginProjectMetadata::fromJson: an empty
version string leaves the default 0; a string starting with the literal
character v has that prefix cut off and the remainder converted with
QString::toInt; any other non-empty string leaves the default 0 (the
fall-through keeps the default member value, modelled from the spec as
0). -/
def versionFromString (versionStr : List Char) : Int :=
  if versionStr = [] then 0
  else if List.isPrefixOf ("v".data) versionStr then qstringToInt (versionStr.drop 1)
  else 0

/-- MerginProjectMetadata::fromJson.  The QByteArray argument is
represented by the result of QJsonDocument::fromJson on it (see the file
header).  The debugBuild flag gives Q_ASSERT its build-dependent
semantics: when assertions are enabled and the files field is not an
array the program aborts, modelled as none; otherwise the function
returns the manifest together with the list of qDebug diagnostics it
printed. -/
def MerginProjectMetadata.fromJson (debugBuild : Bool) (doc : Option QJson) :
    Option (MerginProjectMetadata × List String) :=
  match doc with
  | some (QJson.obj docObj) =>
    if debugBuild && !jsonIsArray (objValue docObj ("files".data)) then
      none
    else
      some ({ name := jsonToString (objValue docObj ("name".data)),
              projectNamespace := jsonToString (objValue docObj ("namespace".data)),
              version := versionFromString (jsonToString (objValue docObj ("version".data))),
              files := (jsonToArray (objValue docObj ("files".data))).map
                (fun v => MerginFile.fromJsonObject (jsonToObject v)) }, [])
  | _ => some ({}, ["MerginProjectMetadata::fromJson: invalid content!"])

/-- MerginProjectMetadata::fromCachedJson.  The local filesystem is a
map from paths to the contents of the file when it can be opened
read-only, none when the open fails; the contents are represented, as
everywhere, by the result of deserializing them. -/
def MerginProjectMetadata.fromCachedJson (debugBuild : Bool)
    (fileSystem : List Char → Option (Option QJson)) (metadataFilePath : List Char) :
    Option (MerginProjectMetadata × List String) :=
  match fileSystem metadataFilePath with
  | some contents => MerginProjectMetadata.fromJson debugBuild contents
  | none => some ({}, [])

/-- The loop of MerginProjectMetadata::fileInfo: the first file record
whose path equals the argument. -/
def fileInfoLoop (files : List MerginFile) (filePath : List Char) : Option MerginFile :=
  match files with
  | [] => none
  | f :: rest => if f.path = filePath then some f else fileInfoLoop rest filePath

/-- MerginProjectMetadata::fileInfo: the first matching record, or a
default-constructed MerginFile after printing a qDebug diagnostic (the
second component). -/
def MerginProjectMetadata.fileInfo (m : MerginProjectMetadata) (filePath : List Char) :
    MerginFile × Option String :=
  match fileInfoLoop m.files filePath with
  | some f => (f, none)
  | none => ({}, some "requested fileInfo() for non-existant file! ")

/-- Whether a deserialized document has an object as top-level value. -/
def topIsObject : Option QJson → Bool
  | some (QJson.obj _) => true
  | _ => false

/-- Whether a deserialized document is an object whose files field holds
an array (the condition of the Q_ASSERT in fromJson). -/
def filesFieldIsArray : Option QJson → Bool
  | some (QJson.obj docObj) => jsonIsArray (objValue docObj ("files".data))
  | _ => false

/-- The version mapping exactly as the spec states it, with the remainder
of a v-prefixed string read as an unbounded mathematical integer. -/
def specVersionUnbounded (s : List Char) : Int :=
  if s = [] then 0
  else if s.take 1 = ['v'] then (parseIntegerChars (s.drop 1)).getD 0
  else 0

/-- The version mapping with the amendment the code forces: the remainder
of a v-prefixed string is read as a 32-bit signed integer, and a
non-numeric or out-of-range remainder gives 0. -/
def specVersion32 (s : List Char) : Int :=
  if s = [] then 0
  else if s.take 1 = ['v'] then
    match parseIntegerChars (s.drop 1) with
    | some v => if -(2 ^ 31) ≤ v ∧ v < 2 ^ 31 then v else 0
    | none => 0
  else 0

/-- Modelled from the spec: the timestamp of a file record in a manifest
a caller serializes is a real, valid UTC instant (the serializer itself
is not among the sources). -/
def mtimeValid : Option CivilTime → Prop
  | some t => t.validB = true
  | none => False

instance (o : Option CivilTime) : Decidable (mtimeValid o) :=
  match o with
  | some t => inferInstanceAs (Decidable (t.validB = true))
  | none => isFalse (fun h => h)

/-- Modelled from the spec: a valid manifest value is one whose fields
are representable in the wire schema of the spec - the version is a
non-negative 32-bit integer (serialized as a v-numeral), each size fits
a 32-bit signed integer, and each timestamp is valid. -/
def manifestValid (m : MerginProjectMetadata) : Prop :=
  0 ≤ m.version ∧ m.version < 2 ^ 31 ∧
    ∀ f ∈ m.files, -(2 ^ 31) ≤ f.size ∧ f.size < 2 ^ 31 ∧ mtimeValid f.mtime

instance (m : MerginProjectMetadata) : Decidable (manifestValid m) := by
  unfold manifestValid
  infer_instance

/-- Modelled from the spec: the serialization of one file record in the
wire format of the spec (the serializer is not among the sources). -/
def serializeFileRecord (f : MerginFile) : QJson :=
  QJson.obj [("path".data, QJson.str f.path),
             ("checksum".data, QJson.str f.checksum),
             ("size".data, QJson.num f.size),
             ("mtime".data, QJson.str (match f.mtime with
               | some t => formatIsoUTC t
               | none => []))]

/-- Modelled from the spec: the serialization of a manifest in the wire
format of the spec (the serializer is not among the sources). -/
def serializeManifest (m : MerginProjectMetadata) : QJson :=
  QJson.obj [("name".data, QJson.str m.name),
             ("namespace".data, QJson.str m.projectNamespace),
             ("version".data, QJson.str ('v' :: intToChars m.version)),
             ("files".data, QJson.arr (m.files.map serializeFileRecord))]

theorem versionFromString_eq_spec32 (s : List Char) :
    versionFromString s = specVersion32 s := by
  unfold versionFromString specVersion32 qstringToInt
  by_cases h0 : s = []
  · simp [h0]
  · rw [if_neg h0, if_neg h0]
    cases s with
    | nil => exact absurd rfl h0
    | cons c cs =>
      by_cases hc : c = 'v'
      · subst hc
        rw [if_pos (by simp [List.isPrefixOf] : List.isPrefixOf ("v".data) ('v' :: cs) = true),
          if_pos (by simp : ('v' :: cs).take 1 = ['v'])]
        simp only [List.drop_succ_cons, List.drop_zero]
        cases hp : parseIntegerChars cs with
        | none => rfl
        | some v => rfl
      · rw [if_neg (by simp [List.isPrefixOf]; exact fun h => hc h.symm :
            ¬List.isPrefixOf ("v".data) (c :: cs) = true),
          if_neg (by simp [hc] : ¬(c :: cs).take 1 = ['v'])]

theorem versionFromString_v (l : List Char) :
    versionFromString ('v' :: l) = qstringToInt l := by
  unfold versionFromString
  rw [if_neg (by simp), if_pos (by simp [List.isPrefixOf] :
    List.isPrefixOf ("v".data) ('v' :: l) = true)]
  simp only [List.drop_succ_cons, List.drop_zero]

theorem fromJsonObject_serializeFileRecord (f : MerginFile)
    (h1 : -(2 ^ 31) ≤ f.size) (h2 : f.size < 2 ^ 31) (h3 : mtimeValid f.mtime) :
    MerginFile.fromJsonObject (jsonToObject (serializeFileRecord f)) = f := by
  obtain ⟨fc, fp, fs, fm⟩ := f
  obtain ⟨t, ht, hvb⟩ : ∃ t, fm = some t ∧ t.validB = true := by
    cases hm : fm with
    | some t => rw [hm] at h3; exact ⟨t, rfl, h3⟩
    | none => rw [hm] at h3; exact h3.elim
  subst ht
  have hred : MerginFile.fromJsonObject
      (jsonToObject (serializeFileRecord ⟨fc, fp, fs, some t⟩)) =
      ⟨fc, fp, jsonToInt (some (QJson.num fs)), qdatetimeFromIsoUTC (formatIsoUTC t)⟩ := rfl
  rw [hred, qdatetime_roundtrip t hvb]
  have hsz : jsonToInt (some (QJson.num fs)) = fs := by
    show (if -(2 ^ 31) ≤ fs ∧ fs < 2 ^ 31 then fs else 0) = fs
    exact if_pos ⟨h1, h2⟩
  rw [hsz]

theorem map_roundtrip_files (fs : List MerginFile)
    (h : ∀ f ∈ fs, -(2 ^ 31) ≤ f.size ∧ f.size < 2 ^ 31 ∧ mtimeValid f.mtime) :
    (fs.map serializeFileRecord).map (fun v => MerginFile.fromJsonObject (jsonToObject v)) =
      fs := by
  induction fs with
  | nil => rfl
  | cons f rest ih =>
    simp only [List.map_cons]
    obtain ⟨ha, hb, hc⟩ := h f (List.mem_cons_self f rest)
    rw [fromJsonObject_serializeFileRecord f ha hb hc,
      ih (fun g hg => h g (List.mem_cons_of_mem f hg))]

theorem fileInfoLoop_eq_find (filePath : List Char) (l : List MerginFile) :
    fileInfoLoop l filePath = l.find? (fun g => g.path == filePath) := by
  induction l with
  | nil => rfl
  | cons f rest ih =>
    unfold fileInfoLoop
    by_cases hp : f.path = filePath
    · rw [if_pos hp, List.find?_cons_of_pos _ (by simp [hp])]
    · rw [if_neg hp, ih, List.find?_cons_of_neg _ (by simp [hp])]

/-- Extraction of the parse result of fromJson on an object document. -/
theorem fromJson_obj_components (debugBuild : Bool) (docObj : List (List Char × QJson))
    (m : MerginProjectMetadata) (ds : List String)
    (h : MerginProjectMetadata.fromJson debugBuild (some (QJson.obj docObj)) = some (m, ds)) :
    m = { name := jsonToString (objValue docObj ("name".data)),
          projectNamespace := jsonToString (objValue docObj ("namespace".data)),
          version := versionFromString (jsonToString (objValue docObj ("version".data))),
          files := (jsonToArray (objValue docObj ("files".data))).map
            (fun v => MerginFile.fromJsonObject (jsonToObject v)) } ∧ ds = [] := by
  have h2 : (if (debugBuild && !jsonIsArray (objValue docObj ("files".data))) = true
      then none
      else some
        (({ name := jsonToString (objValue docObj ("name".data)),
            projectNamespace := jsonToString (objValue docObj ("namespace".data)),
            version := versionFromString (jsonToString (objValue docObj ("version".data))),
            files := (jsonToArray (objValue docObj ("files".data))).map
              (fun v => MerginFile.fromJsonObject (jsonToObject v)) } : MerginProjectMetadata),
          ([] : List String))) = some (m, ds) := h
  by_cases hc : (debugBuild && !jsonIsArray (objValue docObj ("files".data))) = true
  · rw [if_pos hc] at h2
    exact absurd h2 (by simp)
  · rw [if_neg hc] at h2
    simp only [Option.some.injEq, Prod.mk.injEq] at h2
    exact ⟨h2.1.symm, h2.2.symm⟩

/-- Claim C1, counterexample: on a document whose top-level value is an
object without a files field, fromJson fails its Q_ASSERT in a build
with assertions enabled, so parsing does abort instead of returning a
manifest. -/
theorem claim1_counterexample :
    MerginProjectMetadata.fromJson true (some (QJson.obj [("name".data, QJson.str ("x".data))])) =
      none := rfl

/-- Claim C1 (amended): for every input, parse returns a manifest without
throwing or aborting provided assertions are disabled (release build) or
the files field of an object document is an array; only the Q_ASSERT on
a non-array files field in an assertion-enabled build aborts. -/
theorem claim1_parse_total (debugBuild : Bool) (doc : Option QJson)
    (h : debugBuild = false ∨ filesFieldIsArray doc = true) :
    (MerginProjectMetadata.fromJson debugBuild doc).isSome = true := by
  cases doc with
  | none => rfl
  | some j =>
    cases j with
    | obj kvs =>
      have hcond : (debugBuild && !jsonIsArray (objValue kvs ("files".data))) = false := by
        rcases h with h | h
        · rw [h]
          rfl
        · have hb : jsonIsArray (objValue kvs ("files".data)) = true := h
          rw [hb]
          simp
      simp only [MerginProjectMetadata.fromJson, hcond, Bool.false_eq_true, if_false,
        Option.isSome_some]
    | null => rfl
    | bool b => rfl
    | num n => rfl
    | str s => rfl
    | arr xs => rfl

/-- Claim C1, witness of the amended statement at a concrete input. -/
theorem claim1_parse_total_witness :
    (MerginProjectMetadata.fromJson true
      (some (QJson.obj [("files".data, QJson.arr [])]))).isSome = true :=
  claim1_parse_total true (some (QJson.obj [("files".data, QJson.arr [])])) (Or.inr rfl)

/-- Claim C2, counterexample: on a version string whose numeric remainder
exceeds the 32-bit signed range, fromJson yields 0 while the mapping the
claim states (remainder parsed as an integer) yields that remainder. -/
theorem claim2_counterexample :
    (MerginProjectMetadata.fromJson false (some (QJson.obj
        [("files".data, QJson.arr []),
         ("version".data, QJson.str ("v2147483648".data))]))).map
      (fun p => p.1.version) = some 0 ∧
    specVersionUnbounded ("v2147483648".data) = 2147483648 := ⟨rfl, rfl⟩

/-- Claim C2 (amended): for every object document on which parse returns
a manifest, the version field maps as: empty string to 0; a string
starting with the literal character v to its remainder parsed as a
32-bit signed integer, a non-numeric or out-of-range remainder giving 0;
any other non-empty string to 0. -/
theorem claim2_version_mapping (debugBuild : Bool) (docObj : List (List Char × QJson))
    (m : MerginProjectMetadata) (ds : List String)
    (h : MerginProjectMetadata.fromJson debugBuild (some (QJson.obj docObj)) = some (m, ds)) :
    m.version = specVersion32 (jsonToString (objValue docObj ("version".data))) := by
  obtain ⟨hm, -⟩ := fromJson_obj_components debugBuild docObj m ds h
  rw [hm]
  exact versionFromString_eq_spec32 _

/-- Claim C2, witness of the amended statement at a concrete input. -/
theorem claim2_version_mapping_witness :
    ({ name := [], projectNamespace := [], version := 42, files := [] } :
        MerginProjectMetadata).version =
      specVersion32 (jsonToString (objValue
        [("files".data, QJson.arr []), ("version".data, QJson.str ("v42".data))]
        ("version".data))) :=
  claim2_version_mapping false
    [("files".data, QJson.arr []), ("version".data, QJson.str ("v42".data))]
    { name := [], projectNamespace := [], version := 42, files := [] } [] rfl

/-- Claim C3: fileInfo performs a linear scan under exact case-sensitive
equality and returns the first record in insertion order whose path
equals the query, duplicates included; when no record matches it reports
a diagnostic and returns a default-constructed record, detectable by its
empty path field. -/
theorem claim3_fileInfo_lookup (m : MerginProjectMetadata) (filePath : List Char) :
    (∀ f, m.files.find? (fun g => g.path == filePath) = some f →
        m.fileInfo filePath = (f, none)) ∧
    (m.files.find? (fun g => g.path == filePath) = none →
        m.fileInfo filePath =
          ({ checksum := [], path := [], size := 0, mtime := none },
            some "requested fileInfo() for non-existant file! ")) := by
  unfold MerginProjectMetadata.fileInfo
  rw [fileInfoLoop_eq_find filePath m.files]
  constructor
  · intro f hf
    rw [hf]
  · intro hf
    rw [hf]

/-- Claim C3, witness: first of two records sharing a path wins; a missing
path gives the diagnostic and the empty record. -/
theorem claim3_fileInfo_lookup_witness :
    (MerginProjectMetadata.mk [] [] 0
        [⟨"c1".data, "a".data, 1, none⟩, ⟨"c2".data, "a".data, 2, none⟩]).fileInfo ("a".data) =
      (⟨"c1".data, "a".data, 1, none⟩, none) ∧
    (MerginProjectMetadata.mk [] [] 0
        [⟨"c1".data, "a".data, 1, none⟩, ⟨"c2".data, "a".data, 2, none⟩]).fileInfo ("b".data) =
      ({ checksum := [], path := [], size := 0, mtime := none },
        some "requested fileInfo() for non-existant file! ") :=
  ⟨(claim3_fileInfo_lookup _ _).1 _ rfl, (claim3_fileInfo_lookup _ _).2 rfl⟩

/-- Claim C4: on every document whose top-level value is not an object,
parse reports a diagnostic and returns the empty manifest: zero files,
empty name, empty namespace, version 0. -/
theorem claim4_invalid_toplevel (debugBuild : Bool) (doc : Option QJson)
    (h : topIsObject doc = false) :
    MerginProjectMetadata.fromJson debugBuild doc =
      some ({ name := [], projectNamespace := [], version := 0, files := [] },
        ["MerginProjectMetadata::fromJson: invalid content!"]) := by
  cases doc with
  | none => rfl
  | some j =>
    cases j with
    | obj kvs => simp [topIsObject] at h
    | null => rfl
    | bool b => rfl
    | num n => rfl
    | str s => rfl
    | arr xs => rfl

/-- Claim C4, witness at a concrete non-object document. -/
theorem claim4_invalid_toplevel_witness :
    MerginProjectMetadata.fromJson true (some (QJson.num 7)) =
      some ({ name := [], projectNamespace := [], version := 0, files := [] },
        ["MerginProjectMetadata::fromJson: invalid content!"]) :=
  claim4_invalid_toplevel true (some (QJson.num 7)) rfl

/-- Claim C5: fromCachedJson returns the default empty manifest when the
file cannot be opened read-only, and otherwise is exactly fromJson
applied to the file contents. -/
theorem claim5_fromCachedJson (debugBuild : Bool)
    (fileSystem : List Char → Option (Option QJson)) (metadataFilePath : List Char) :
    (fileSystem metadataFilePath = none →
      MerginProjectMetadata.fromCachedJson debugBuild fileSystem metadataFilePath =
        some ({ name := [], projectNamespace := [], version := 0, files := [] }, [])) ∧
    (∀ contents, fileSystem metadataFilePath = some contents →
      MerginProjectMetadata.fromCachedJson debugBuild fileSystem metadataFilePath =
        MerginProjectMetadata.fromJson debugBuild contents) := by
  unfold MerginProjectMetadata.fromCachedJson
  constructor
  · intro h
    rw [h]
  · intro c h
    rw [h]

/-- Claim C5, witness on a concrete failing open and a concrete read. -/
theorem claim5_fromCachedJson_witness :
    MerginProjectMetadata.fromCachedJson false (fun _ => none) ("proj.json".data) =
      some ({ name := [], projectNamespace := [], version := 0, files := [] }, []) ∧
    MerginProjectMetadata.fromCachedJson false (fun _ => some (some (QJson.num 1)))
        ("proj.json".data) =
      MerginProjectMetadata.fromJson false (some (QJson.num 1)) :=
  ⟨(claim5_fromCachedJson false (fun _ => none) ("proj.json".data)).1 rfl,
   (claim5_fromCachedJson false (fun _ => some (some (QJson.num 1)))
     ("proj.json".data)).2 (some (QJson.num 1)) rfl⟩

/-- Claim C6: a valid ISO-8601-with-milliseconds string round-trips to
the same UTC instant (serializing any valid UTC timestamp and parsing it
back is the identity, and an offset-carrying string is normalized to
UTC), while an unparseable timestamp string yields the invalid sentinel
in that record and every other field of the record is still decoded. -/
theorem claim6_mtime_parsing :
    (∀ t : CivilTime, t.validB = true →
        qdatetimeFromIsoUTC (formatIsoUTC t) = some t) ∧
    qdatetimeFromIsoUTC ("2020-03-01T01:30:00.000+02:00".data) =
      some ⟨2020, 2, 29, 23, 30, 0, 0⟩ ∧
    (∀ o : List (List Char × QJson),
        qdatetimeFromIsoUTC (jsonToString (objValue o ("mtime".data))) = none →
        (MerginFile.fromJsonObject o).mtime = none ∧
        (MerginFile.fromJsonObject o).checksum = jsonToString (objValue o ("checksum".data)) ∧
        (MerginFile.fromJsonObject o).path = jsonToString (objValue o ("path".data)) ∧
        (MerginFile.fromJsonObject o).size = jsonToInt (objValue o ("size".data))) := by
  refine ⟨qdatetime_roundtrip, by rfl, ?_⟩
  intro o h
  exact ⟨h, rfl, rfl, rfl⟩

/-- Claim C6, witness: a concrete timestamp round-trips and a concrete
garbage timestamp yields the sentinel. -/
theorem claim6_mtime_parsing_witness :
    qdatetimeFromIsoUTC (formatIsoUTC ⟨2020, 1, 1, 12, 34, 56, 789⟩) =
      some ⟨2020, 1, 1, 12, 34, 56, 789⟩ ∧
    (MerginFile.fromJsonObject [("path".data, QJson.str ("a.gpkg".data)),
        ("mtime".data, QJson.str ("garbage".data))]).mtime = none :=
  ⟨claim6_mtime_parsing.1 ⟨2020, 1, 1, 12, 34, 56, 789⟩ rfl,
   (claim6_mtime_parsing.2.2 [("path".data, QJson.str ("a.gpkg".data)),
      ("mtime".data, QJson.str ("garbage".data))] rfl).1⟩

/-- Claim C7: parsing the serialization of a valid manifest returns the
manifest itself on every schema field - name, namespace, version, and
each file in order with its path, checksum, size and mtime. -/
theorem claim7_roundtrip (debugBuild : Bool) (m : MerginProjectMetadata)
    (hm : manifestValid m) :
    MerginProjectMetadata.fromJson debugBuild (some (serializeManifest m)) = some (m, []) := by
  obtain ⟨nm, ns, ver, fls⟩ := m
  obtain ⟨hv0, hv1, hfs⟩ := hm
  have hv0a : 0 ≤ ver := hv0
  have hv1a : ver < 2 ^ 31 := hv1
  have hfsa : ∀ f ∈ fls, -(2 ^ 31) ≤ f.size ∧ f.size < 2 ^ 31 ∧ mtimeValid f.mtime := hfs
  have key : MerginProjectMetadata.fromJson debugBuild
      (some (serializeManifest ⟨nm, ns, ver, fls⟩)) =
      if debugBuild && false then none
      else some (⟨nm, ns, versionFromString ('v' :: intToChars ver),
        (fls.map serializeFileRecord).map
          (fun v => MerginFile.fromJsonObject (jsonToObject v))⟩, []) := rfl
  rw [key, versionFromString_v, qstringToInt_intToChars ver (by omega) hv1a,
    map_roundtrip_files fls hfsa]
  simp

/-- Claim C7, witness on the worked example manifest of the spec. -/
theorem claim7_roundtrip_witness :
    MerginProjectMetadata.fromJson false (some (serializeManifest
      ⟨"Survey".data, "org1".data, 3,
        [⟨"abc123".data, "data.gpkg".data, 2048, some ⟨2020, 1, 1, 0, 0, 0, 0⟩⟩]⟩)) =
      some (⟨"Survey".data, "org1".data, 3,
        [⟨"abc123".data, "data.gpkg".data, 2048, some ⟨2020, 1, 1, 0, 0, 0, 0⟩⟩]⟩, []) :=
  claim7_roundtrip false
    ⟨"Survey".data, "org1".data, 3,
      [⟨"abc123".data, "data.gpkg".data, 2048, some ⟨2020, 1, 1, 0, 0, 0, 0⟩⟩]⟩
    (by decide)

/-- Claim C8: on every object document on which parse returns a manifest,
name and namespace are extracted as plain strings, and an absent field
leaves the corresponding manifest field empty. -/
theorem claim8_name_namespace (debugBuild : Bool) (docObj : List (List Char × QJson))
    (m : MerginProjectMetadata) (ds : List String)
    (h : MerginProjectMetadata.fromJson debugBuild (some (QJson.obj docObj)) = some (m, ds)) :
    m.name = jsonToString (objValue docObj ("name".data)) ∧
    m.projectNamespace = jsonToString (objValue docObj ("namespace".data)) ∧
    (objValue docObj ("name".data) = none → m.name = []) ∧
    (objValue docObj ("namespace".data) = none → m.projectNamespace = []) := by
  obtain ⟨hm, -⟩ := fromJson_obj_components debugBuild docObj m ds h
  subst hm
  refine ⟨rfl, rfl, ?_, ?_⟩
  · intro habs
    show jsonToString (objValue docObj ("name".data)) = []
    rw [habs]
    rfl
  · intro habs
    show jsonToString (objValue docObj ("namespace".data)) = []
    rw [habs]
    rfl

/-- Claim C8, witness at a concrete document with an absent namespace. -/
theorem claim8_name_namespace_witness :
    (({ name := "Survey".data, projectNamespace := [], version := 0, files := [] } :
        MerginProjectMetadata).name =
      jsonToString (objValue [("files".data, QJson.arr []),
        ("name".data, QJson.str ("Survey".data))] ("name".data))) ∧
    (({ name := "Survey".data, projectNamespace := [], version := 0, files := [] } :
        MerginProjectMetadata).projectNamespace =
      jsonToString (objValue [("files".data, QJson.arr []),
        ("name".data, QJson.str ("Survey".data))] ("namespace".data))) ∧
    (objValue [("files".data, QJson.arr []),
        ("name".data, QJson.str ("Survey".data))] ("name".data) = none →
      ({ name := "Survey".data, projectNamespace := [], version := 0, files := [] } :
        MerginProjectMetadata).name = []) ∧
    (objValue [("files".data, QJson.arr []),
        ("name".data, QJson.str ("Survey".data))] ("namespace".data) = none →
      ({ name := "Survey".data, projectNamespace := [], version := 0, files := [] } :
        MerginProjectMetadata).projectNamespace = []) :=
  claim8_name_namespace false
    [("files".data, QJson.arr []), ("name".data, QJson.str ("Survey".data))]
    { name := "Survey".data, projectNamespace := [], version := 0, files := [] } [] rfl

/-- Claim C9: on an object document whose files field is an array, parse
appends one record per element in order, so the file count equals the
array length; a non-object element still contributes a record with empty
path, empty checksum, size 0 and the sentinel timestamp. -/
theorem claim9_files_decoding (debugBuild : Bool) (docObj : List (List Char × QJson))
    (xs : List QJson) (m : MerginProjectMetadata) (ds : List String)
    (harr : objValue docObj ("files".data) = some (QJson.arr xs))
    (h : MerginProjectMetadata.fromJson debugBuild (some (QJson.obj docObj)) = some (m, ds)) :
    m.files.length = xs.length ∧
    m.files = xs.map (fun v => MerginFile.fromJsonObject (jsonToObject v)) ∧
    (∀ v ∈ xs, jsonIsObject v = false →
      MerginFile.fromJsonObject (jsonToObject v) =
        { checksum := [], path := [], size := 0, mtime := none }) := by
  obtain ⟨hm, -⟩ := fromJson_obj_components debugBuild docObj m ds h
  subst hm
  have hfiles : (jsonToArray (objValue docObj ("files".data))).map
      (fun v => MerginFile.fromJsonObject (jsonToObject v)) =
      xs.map (fun v => MerginFile.fromJsonObject (jsonToObject v)) := by
    rw [harr]
    rfl
  refine ⟨?_, ?_, ?_⟩
  · show ((jsonToArray (objValue docObj ("files".data))).map
      (fun v => MerginFile.fromJsonObject (jsonToObject v))).length = xs.length
    rw [hfiles, List.length_map]
  · show (jsonToArray (objValue docObj ("files".data))).map
      (fun v => MerginFile.fromJsonObject (jsonToObject v)) =
      xs.map (fun v => MerginFile.fromJsonObject (jsonToObject v))
    exact hfiles
  · intro v hv hno
    cases v with
    | obj kvs => exact absurd hno (by simp [jsonIsObject])
    | null => rfl
    | bool b => rfl
    | num n => rfl
    | str s => rfl
    | arr ys => rfl

/-- Claim C9, witness at a concrete files array holding one non-object
element. -/
theorem claim9_files_decoding_witness :
    ({ name := [], projectNamespace := [], version := 0,
        files := [{ checksum := [], path := [], size := 0, mtime := none }] } :
        MerginProjectMetadata).files.length = [QJson.num 3].length :=
  (claim9_files_decoding false [("files".data, QJson.arr [QJson.num 3])] [QJson.num 3]
    { name := [], projectNamespace := [], version := 0,
      files := [{ checksum := [], path := [], size := 0, mtime := none }] } [] rfl rfl).1

/-- Claim C10, counterexample: a negative integer size below the 32-bit
signed range is not stored unchanged; the record stores the default 0. -/
theorem claim10_counterexample :
    (MerginFile.fromJsonObject [("size".data, QJson.num (-2147483649))]).size = 0 ∧
    (-2147483649 : Int) < 0 ∧ (0 : Int) ≠ (-2147483649 : Int) :=
  ⟨rfl, by decide, by decide⟩

/-- Claim C10 (amended): parsing does not validate that a size is
non-negative: a files-array element whose size field is a negative
integer within the 32-bit signed range keeps that negative size
unchanged, with no clamping and no rejection of the record. -/
theorem claim10_negative_size (o : List (List Char × QJson)) (s : Int)
    (hfield : objValue o ("size".data) = some (QJson.num s))
    (hlo : -(2 ^ 31) ≤ s) (hneg : s < 0) :
    (MerginFile.fromJsonObject o).size = s := by
  show jsonToInt (objValue o ("size".data)) = s
  rw [hfield]
  show (if -(2 ^ 31) ≤ s ∧ s < 2 ^ 31 then s else 0) = s
  exact if_pos ⟨hlo, by omega⟩

/-- Claim C10, witness at a concrete negative size. -/
theorem claim10_negative_size_witness :
    (MerginFile.fromJsonObject [("size".data, QJson.num (-5))]).size = -5 :=
  claim10_negative_size [("size".data, QJson.num (-5))] (-5) rfl (by decide) (by decide)
